import Mathlib

/-!
Shallow embedding of the execution-subagent delegation tool
(`ExecutionSubagentTool` and `ExecutionSubagentPrompt`).

The tool's `invoke` method synthesizes an instruction string from the
request's `command` and `objective`, builds the options of a bounded
tool-calling loop (call budget 25, a one-turn synthetic conversation,
an allowlist holding only the terminal-execution tool), wraps the outer
response stream in a filter that forwards only three part kinds, runs the
loop, and collapses the loop's result into a single response string.
-/

namespace ExecutionSubagent

/-- Parameters of the execution subagent tool (`IExecutionSubagentParams`):
a command to execute, an objective describing what to determine from its
output, and a user-visible description. -/
structure IExecutionSubagentParams where
  command : String
  objective : String
  description : String
deriving Repr, DecidableEq

/-- Tool identifiers (`ToolName`). The source file uses
`ToolName.ExecutionSubagent` and `ToolName.CoreRunInTerminal`; further
constructors stand for the other tools of the registry, so that the
allowlist claims are about a non-degenerate type. -/
inductive ToolName where
  | ExecutionSubagent
  | CoreRunInTerminal
  | ReadFile
  | EditFile
  | Codebase
deriving Repr, DecidableEq

/-- Response-stream part kinds (`vscodeTypes`). The three kinds kept by the
filter in `invoke` are `ChatPrepareToolInvocationPart`,
`ChatResponseTextEditPart` and `ChatResponseNotebookEditPart`; the other
constructors stand for the remaining part kinds a stream can carry. -/
inductive ChatResponsePart where
  | prepareToolInvocation (toolName : String)
  | textEdit (uri : String)
  | notebookEdit (uri : String)
  | markdown (text : String)
  | progress (text : String)
  | reference (uri : String)
deriving Repr, DecidableEq

/-- The filtering predicate of `invoke` (source lines 69-72):
`part instanceof ChatPrepareToolInvocationPart || part instanceof
ChatResponseTextEditPart || part instanceof ChatResponseNotebookEditPart`. -/
def keepPart : ChatResponsePart → Bool
  | .prepareToolInvocation _ => true
  | .textEdit _ => true
  | .notebookEdit _ => true
  | .markdown _ => false
  | .progress _ => false
  | .reference _ => false

/-- Modelled from the spec: `ChatResponseStreamImpl.filter` (its
implementation is outside the provided sources) produces a projected sink
that synchronously forwards to the outer sink each pushed part satisfying
the predicate and drops the rest.  A sink is represented by the list of
parts it has received; one push appends the part when it is kept. -/
def filterSinkStep (received : List ChatResponsePart) (part : ChatResponsePart) :
    List ChatResponsePart :=
  if keepPart part then received ++ [part] else received

/-- The parts received by the outer sink after the filtered sink has been
fed the given parts in order, starting from an empty outer sink. -/
def runFilteredSink (parts : List ChatResponsePart) : List ChatResponsePart :=
  parts.foldl filterSinkStep []

/-- The chat request handle stored in the ambient context
(`this._inputContext!.request!`); only its `location` is read by `invoke`. -/
structure ChatRequest where
  location : String
deriving Repr, DecidableEq

/-- The ambient prompt context (`IBuildPromptContext`) as used by `invoke`:
a request handle (dereferenced with `!`, so modelled as optional) and an
optional outer response stream. The stream is identified only by its
presence; the parts it receives are computed by `runFilteredSink`. -/
structure IBuildPromptContext where
  request : Option ChatRequest
  stream : Option Unit
deriving Repr, DecidableEq

/-- A turn request (`Turn`'s second constructor argument): a message with a
role type. The source constructs `{ type: 'user', message: ... }`. -/
structure TurnRequest where
  type_ : String
  message : String
deriving Repr, DecidableEq

/-- A conversation turn (`Turn(id, request)`). -/
structure Turn where
  id : String
  request : TurnRequest
deriving Repr, DecidableEq

/-- A conversation (`Conversation(sessionId, turns)`). -/
structure Conversation where
  sessionId : String
  turns : List Turn
deriving Repr, DecidableEq

/-- The custom prompt class selected in the loop options. -/
inductive CustomPromptClass where
  | executionSubagentPrompt
deriving Repr, DecidableEq

/-- The options record passed to `SubagentToolCallingLoop` by `invoke`. -/
structure SubagentLoopOptions where
  toolCallLimit : Nat
  conversation : Conversation
  request : ChatRequest
  location : String
  promptText : String
  allowedTools : Finset ToolName
  customPromptClass : CustomPromptClass
deriving DecidableEq

/-- JavaScript `Array.prototype.join` with separator `"\n"`, used by the
source to assemble the instruction from its lines. -/
def joinLines : List String → String
  | [] => ""
  | [line] => line
  | line :: rest => line ++ "\n" ++ joinLines rest

/-- The synthesized execution instruction (source lines 36-57), verbatim:
each list element is one line of the template, joined with newlines. -/
def executionInstruction (command objective : String) : String :=
  joinLines
    [ "Command: " ++ command
    , "Objective: " ++ objective
    , ""
    , "You are a specialized execution subagent. Your task is to execute the above command and extract relevant excerpts of its output according to the purpose described in the objective."
    , "You have access to just one tool:"
    , "- run_in_terminal: Executes a command in the terminal and returns the output."
    , ""
    , "After completing your search, return ONLY a valid JSON array of the most relevant execution output excerpts in this exact format:"
    , "["
    , "  \x7b"
    , "    \"output\": \"Excerpt of the command output here\""
    , " \t \"return_code\": 0"
    , "  \x7d"
    , "]"
    , ""
    , "Include only the most relevant excerpts that would help satisfy the objective."
    , "The \"return_code\" field should capture the command\x27s return code."
    , "The `output` can be an empty string if there is no relevant output."
    , "Do not include any explanation or additional text, only the JSON array."
    , ""
    ]

/-- The instruction as a function of the tool input: `invoke` reads only
`options.input.command` and `options.input.objective` to build it. -/
def mkInstruction (input : IExecutionSubagentParams) : String :=
  executionInstruction input.command input.objective

/-- The loop options constructed by `invoke` (source lines 59-67). -/
def mkLoopOptions (input : IExecutionSubagentParams) (request : ChatRequest) :
    SubagentLoopOptions :=
  { toolCallLimit := 25
  , conversation := ⟨"", [⟨"", ⟨"user", mkInstruction input⟩⟩]⟩
  , request := request
  , location := request.location
  , promptText := input.command
  , allowedTools := {ToolName.CoreRunInTerminal}
  , customPromptClass := .executionSubagentPrompt }

/-- The distinguished success member of `ChatFetchResponseType` (a string
enum in the chat platform layer). -/
def successType : String := "success"

/-- The loop's fetch response: its `ChatFetchResponseType` value and, on
failure, a reason.  Modelled from the spec: the loop's result type is
outside the provided sources; on fetch failure the response carries a
`reason` string, on success only the kind is read. -/
structure FetchResponse where
  type_ : String
  reason : String
deriving Repr, DecidableEq

/-- One tool-call round of the loop with its response text.  Modelled from
the spec: `Round \x7bresponse: string\x7d`. -/
structure Round where
  response : String
deriving Repr, DecidableEq

/-- The final round kept by the loop as a fallback (`loopResult.round`);
its response may be absent — the interpreter applies `?? ''` after it.
Modelled from the spec: the loop's result type is outside the provided
sources. -/
structure FallbackRound where
  response : Option String
deriving Repr, DecidableEq

/-- The value returned by `SubagentToolCallingLoop.run`.  Modelled from the
spec: a fetch response, the ordered sequence of tool-call rounds (possibly
empty), and a last-round fallback. -/
structure LoopResult where
  response : FetchResponse
  toolCallRounds : List Round
  round : FallbackRound
deriving Repr, DecidableEq

/-- The result interpretation of `invoke` (source lines 76-81): on success,
`loopResult.toolCallRounds.at(-1)?.response ?? loopResult.round.response ??
''`; otherwise the formatted failure message. A round's `response` is a
string, so `at(-1)?.response` is absent exactly when the round list is
empty. -/
def subagentResponse (loopResult : LoopResult) : String :=
  if loopResult.response.type_ = successType then
    match loopResult.toolCallRounds.getLast? with
    | some r => r.response
    | none => loopResult.round.response.getD ""
  else
    "The search subagent request failed with this message:\n" ++
      loopResult.response.type_ ++ ": " ++ loopResult.response.reason

/-- The observable outcome of one `invoke` call: the loop options it
constructed, the stream argument passed to `loop.run` (`none` when the
outer stream is absent), the parts forwarded to the outer sink, and the
text of the returned `ExtendedLanguageModelToolResult`. -/
structure InvokeOutcome where
  options : SubagentLoopOptions
  streamArg : Option (List ChatResponsePart)
  forwarded : List ChatResponsePart
  resultText : String
deriving DecidableEq

/-- The stream argument of `loop.run`: `this._inputContext?.stream &&
ChatResponseStreamImpl.filter(...)` — absent when the outer stream is
absent, otherwise the filtered projection of the parts the loop pushes. -/
def loopStream (ctx : IBuildPromptContext) (parts : List ChatResponsePart) :
    Option (List ChatResponsePart) :=
  ctx.stream.map fun _ => runFilteredSink parts

/-- The parts that reach the outer sink during one `invoke` call: none when
the stream argument is absent. -/
def forwardedParts (ctx : IBuildPromptContext) (parts : List ChatResponsePart) :
    List ChatResponsePart :=
  (loopStream ctx parts).getD []

/-- The tool instance: its only field is the ambient context stashed by
`resolveInput` (`private _inputContext`). -/
structure ExecutionSubagentTool where
  _inputContext : Option IBuildPromptContext
deriving Repr, DecidableEq

/-- `ExecutionSubagentTool.invoke`, parametrized by the `LoopResult` the
external loop returns and by the parts the loop pushes into its sink.
The `!` dereferences of `this._inputContext` and `.request` are modelled
as returning `none` (the fatal missing-context crash) when absent. -/
def invoke (tool : ExecutionSubagentTool) (input : IExecutionSubagentParams)
    (loopResult : LoopResult) (parts : List ChatResponsePart) :
    Option InvokeOutcome :=
  match tool._inputContext with
  | none => none
  | some ctx =>
    match ctx.request with
    | none => none
    | some req =>
      some { options := mkLoopOptions input req
           , streamArg := loopStream ctx parts
           , forwarded := forwardedParts ctx parts
           , resultText := subagentResponse loopResult }

/-- The tool mode argument of `resolveInput` (ignored by it). -/
inductive CopilotToolMode where
  | fullContext
  | partialContext
deriving Repr, DecidableEq

/-- `ExecutionSubagentTool.resolveInput`: stores the prompt context on the
instance and returns the input unchanged. The result is the updated
instance paired with the returned input. -/
def resolveInput (tool : ExecutionSubagentTool) (input : IExecutionSubagentParams)
    (promptContext : IBuildPromptContext) (_mode : CopilotToolMode) :
    ExecutionSubagentTool × IExecutionSubagentParams :=
  ({ tool with _inputContext := some promptContext }, input)

/-- One rendered message of `ExecutionSubagentPrompt.render`: the user
message holding `conversation?.turns[0]?.request.message` (absent when the
conversation or its first turn is absent), followed by the tool-call
history element. -/
inductive RenderedMessage where
  | userMessage (content : Option String)
  | toolCalls
deriving Repr, DecidableEq

/-- `ExecutionSubagentPrompt.render` (executionSubagentPrompt.tsx lines
16-34): emits a `UserMessage` whose content is the first turn's request
message, then the `ChatToolCalls` element. -/
def renderPrompt (conversation : Option Conversation) : List RenderedMessage :=
  [ .userMessage ((conversation.bind fun c => c.turns.head?).map fun t => t.request.message)
  , .toolCalls ]

/-- The literal part of the instruction that follows the objective: the
join of lines 3 through 20 of the template, preceded by the separators
around the first two lines. -/
def instructionTail : String := "\n\nYou are a specialized execution subagent. Your task is to execute the above command and extract relevant excerpts of its output according to the purpose described in the objective.\nYou have access to just one tool:\n- run_in_terminal: Executes a command in the terminal and returns the output.\n\nAfter completing your search, return ONLY a valid JSON array of the most relevant execution output excerpts in this exact format:\n[\n  \x7b\n    \"output\": \"Excerpt of the command output here\"\n \t \"return_code\": 0\n  \x7d\n]\n\nInclude only the most relevant excerpts that would help satisfy the objective.\nThe \"return_code\" field should capture the command\x27s return code.\nThe `output` can be an empty string if there is no relevant output.\nDo not include any explanation or additional text, only the JSON array.\n"

/-- Unfolding of the synthesized instruction: the command and the objective
sit between fixed literal fragments. -/
lemma executionInstruction_eq (c o : String) :
    executionInstruction c o =
      "Command: " ++ (c ++ ("\n" ++ ("Objective: " ++ (o ++ instructionTail)))) := by
  simp [executionInstruction, joinLines, instructionTail, String.append_assoc]

/-- Feeding parts one by one through the filtered sink appends exactly the
kept parts to whatever the outer sink already received. -/
lemma foldl_filterSinkStep (parts : List ChatResponsePart) :
    ∀ acc : List ChatResponsePart,
      parts.foldl filterSinkStep acc = acc ++ parts.filter keepPart := by
  induction parts with
  | nil => intro acc; simp
  | cons p ps ih =>
    intro acc
    by_cases h : keepPart p
    · simp [List.foldl_cons, filterSinkStep, h, ih, List.filter_cons]
    · simp [List.foldl_cons, filterSinkStep, h, ih, List.filter_cons]

/-- Claim C1 (counterexample): it is not the case that every `invoke` call
that returns a result yields a non-empty string — a successful loop result
with no tool-call rounds and an absent fallback response yields `""`. -/
theorem exec_c1_counterexample :
    ¬ (∀ (tool : ExecutionSubagentTool) (input : IExecutionSubagentParams)
        (lr : LoopResult) (parts : List ChatResponsePart) (out : InvokeOutcome),
        invoke tool input lr parts = some out → out.resultText ≠ "") := by
  intro h
  exact h ⟨some ⟨some ⟨"panel"⟩, none⟩⟩ ⟨"ls -la", "list files", "Listing files"⟩
    ⟨⟨successType, ""⟩, [], ⟨none⟩⟩ [] _ rfl rfl

/-- Claim C1 (amended): for every `invoke` call whose loop result has a
non-success response kind, the returned result string is non-empty; a
successful loop result may yield the empty string. -/
theorem exec_c1_amended (tool : ExecutionSubagentTool)
    (input : IExecutionSubagentParams) (lr : LoopResult)
    (parts : List ChatResponsePart) (out : InvokeOutcome)
    (hout : invoke tool input lr parts = some out)
    (hfail : lr.response.type_ ≠ successType) :
    out.resultText ≠ "" := by
  match tool with
  | ⟨none⟩ => simp [invoke] at hout
  | ⟨some ctx⟩ =>
    match hreq : ctx.request with
    | none => simp [invoke, hreq] at hout
    | some req =>
      simp [invoke, hreq] at hout
      intro hempty
      rw [← hout] at hempty
      simp [subagentResponse, hfail] at hempty
      have := congrArg String.length hempty
      simp [String.length_append] at this
      exact absurd this.1.1.1 (by decide)

/-- Witness for C1 (amended): a failed loop result produces a non-empty
result string. -/
theorem exec_c1_amended_witness :
    InvokeOutcome.resultText
      { options := mkLoopOptions ⟨"ls -la", "list files", "Listing files"⟩ ⟨"panel"⟩
      , streamArg := none
      , forwarded := []
      , resultText := subagentResponse ⟨⟨"error", "boom"⟩, [], ⟨none⟩⟩ } ≠ "" :=
  exec_c1_amended ⟨some ⟨some ⟨"panel"⟩, none⟩⟩ ⟨"ls -la", "list files", "Listing files"⟩
    ⟨⟨"error", "boom"⟩, [], ⟨none⟩⟩ [] _ rfl (by decide)

/-- Claim C2: on a success response, the interpreter returns the response
of the last tool-call round; when the round list is empty it returns the
fallback round response; when that is absent it returns the empty string. -/
theorem exec_c2_success_interpretation (lr : LoopResult)
    (h : lr.response.type_ = successType) :
    (∀ rs r, lr.toolCallRounds = rs ++ [r] → subagentResponse lr = r.response) ∧
    (lr.toolCallRounds = [] → ∀ s, lr.round.response = some s → subagentResponse lr = s) ∧
    (lr.toolCallRounds = [] → lr.round.response = none → subagentResponse lr = "") := by
  refine ⟨?_, ?_, ?_⟩
  · intro rs r hr
    simp [subagentResponse, h, hr, List.getLast?_concat]
  · intro h0 s hs
    simp [subagentResponse, h, h0, hs]
  · intro h0 hn
    simp [subagentResponse, h, h0, hn]

/-- Witness for C2: concrete successful loop results exercising the three
branches of the interpretation. -/
theorem exec_c2_success_interpretation_witness :
    subagentResponse ⟨⟨"success", ""⟩, [⟨"r1"⟩, ⟨"r2"⟩], ⟨none⟩⟩ = "r2" ∧
    subagentResponse ⟨⟨"success", ""⟩, [], ⟨some "fallback"⟩⟩ = "fallback" ∧
    subagentResponse ⟨⟨"success", ""⟩, [], ⟨none⟩⟩ = "" :=
  ⟨(exec_c2_success_interpretation _ rfl).1 [⟨"r1"⟩] ⟨"r2"⟩ rfl,
   (exec_c2_success_interpretation _ rfl).2.1 rfl "fallback" rfl,
   (exec_c2_success_interpretation _ rfl).2.2 rfl rfl⟩

/-- Claim C3: on a failure response of kind K with reason R, `invoke`
returns normally (no exception) and its result text is exactly the
formatted failure message with K and R substituted verbatim. -/
theorem exec_c3_failure_message (ctx : IBuildPromptContext) (req : ChatRequest)
    (input : IExecutionSubagentParams) (lr : LoopResult)
    (parts : List ChatResponsePart) (K R : String)
    (hctx : ctx.request = some req)
    (hK : lr.response.type_ = K) (hKne : K ≠ successType)
    (hR : lr.response.reason = R) :
    (invoke ⟨some ctx⟩ input lr parts).map InvokeOutcome.resultText =
      some ("The search subagent request failed with this message:\n" ++ K ++ ": " ++ R) := by
  simp [invoke, hctx, subagentResponse, hK, hKne, hR]

/-- Witness for C3: a rate-limited failure is rendered into the exact
message format. -/
theorem exec_c3_failure_message_witness :
    (invoke ⟨some ⟨some ⟨"panel"⟩, none⟩⟩ ⟨"ls -la", "list files", "Listing files"⟩
        ⟨⟨"error", "rate limited"⟩, [], ⟨none⟩⟩ []).map InvokeOutcome.resultText =
      some "The search subagent request failed with this message:\nerror: rate limited" := by
  simpa using exec_c3_failure_message ⟨some ⟨"panel"⟩, none⟩ ⟨"panel"⟩
    ⟨"ls -la", "list files", "Listing files"⟩ ⟨⟨"error", "rate limited"⟩, [], ⟨none⟩⟩
    [] "error" "rate limited" rfl rfl (by decide) rfl

/-- Claim C4: the allowlist placed in the loop options has exactly one
element and contains only the terminal-execution tool, for every input. -/
theorem exec_c4_allowlist_singleton (input : IExecutionSubagentParams)
    (req : ChatRequest) :
    (mkLoopOptions input req).allowedTools.card = 1 ∧
    (mkLoopOptions input req).allowedTools = {ToolName.CoreRunInTerminal} ∧
    ∀ t ∈ (mkLoopOptions input req).allowedTools, t = ToolName.CoreRunInTerminal := by
  refine ⟨rfl, rfl, ?_⟩
  intro t ht
  simpa [mkLoopOptions] using ht

/-- Claim C5: the call budget in the loop options is 25 for every input. -/
theorem exec_c5_call_budget (input : IExecutionSubagentParams)
    (req : ChatRequest) :
    (mkLoopOptions input req).toolCallLimit = 25 := rfl

/-- Claim C6: the filtered sink delivers exactly the subsequence of kept
parts, in the original order, with nothing reordered or inserted. -/
theorem exec_c6_stream_filter (parts : List ChatResponsePart) :
    runFilteredSink parts = parts.filter keepPart ∧
    (runFilteredSink parts).Sublist parts ∧
    ∀ p ∈ runFilteredSink parts, keepPart p = true := by
  have h : runFilteredSink parts = parts.filter keepPart := by
    simpa using foldl_filterSinkStep parts []
  refine ⟨h, ?_, ?_⟩
  · rw [h]; exact List.filter_sublist parts
  · intro p hp; rw [h] at hp; exact List.of_mem_filter hp

/-- Claim C7: the instruction depends only on the command and the
objective, and both are embedded verbatim in it. -/
theorem exec_c7_instruction_deterministic (p q : IExecutionSubagentParams)
    (hc : p.command = q.command) (ho : p.objective = q.objective) :
    mkInstruction p = mkInstruction q ∧
    p.command.data <:+: (mkInstruction p).data ∧
    p.objective.data <:+: (mkInstruction p).data := by
  refine ⟨by rw [mkInstruction, mkInstruction, hc, ho], ?_, ?_⟩
  · refine ⟨"Command: ".data,
      ("\n" ++ ("Objective: " ++ (p.objective ++ instructionTail))).data, ?_⟩
    rw [mkInstruction, executionInstruction_eq]
    simp
  · refine ⟨("Command: " ++ (p.command ++ ("\n" ++ "Objective: "))).data,
      instructionTail.data, ?_⟩
    rw [mkInstruction, executionInstruction_eq]
    simp

/-- Witness for C7: two inputs differing only in their description produce
the same instruction, and the command and objective occur in it. -/
theorem exec_c7_instruction_deterministic_witness :
    mkInstruction ⟨"ls -la", "list files", "Listing files"⟩ =
      mkInstruction ⟨"ls -la", "list files", "other label"⟩ ∧
    "ls -la".data <:+: (mkInstruction ⟨"ls -la", "list files", "Listing files"⟩).data ∧
    "list files".data <:+: (mkInstruction ⟨"ls -la", "list files", "Listing files"⟩).data :=
  exec_c7_instruction_deterministic ⟨"ls -la", "list files", "Listing files"⟩
    ⟨"ls -la", "list files", "other label"⟩ rfl rfl

/-- Claim C8: the synthetic conversation holds exactly one turn whose
message is the synthesized instruction, and the prompt renders exactly that
first turn message as the user message. -/
theorem exec_c8_single_turn_render (input : IExecutionSubagentParams)
    (req : ChatRequest) :
    (mkLoopOptions input req).conversation.turns.length = 1 ∧
    (mkLoopOptions input req).conversation.turns =
      [⟨"", ⟨"user", mkInstruction input⟩⟩] ∧
    renderPrompt (some (mkLoopOptions input req).conversation) =
      [.userMessage (some (mkInstruction input)), .toolCalls] :=
  ⟨rfl, rfl, rfl⟩

/-- Claim C9: when the ambient context carries no stream, the loop receives
an absent sink, nothing is forwarded, and `invoke` still returns normally. -/
theorem exec_c9_absent_sink_noop (ctx : IBuildPromptContext) (req : ChatRequest)
    (input : IExecutionSubagentParams) (lr : LoopResult)
    (parts : List ChatResponsePart)
    (hstream : ctx.stream = none) (hreq : ctx.request = some req) :
    loopStream ctx parts = none ∧
    forwardedParts ctx parts = [] ∧
    (invoke ⟨some ctx⟩ input lr parts).map InvokeOutcome.streamArg = some none ∧
    (invoke ⟨some ctx⟩ input lr parts).map InvokeOutcome.forwarded = some [] := by
  refine ⟨by simp [loopStream, hstream], by simp [forwardedParts, loopStream, hstream],
    ?_, ?_⟩
  · simp [invoke, hreq, loopStream, hstream]
  · simp [invoke, hreq, forwardedParts, loopStream, hstream]

/-- Witness for C9: a context with a request but no stream, on a stream of
parts that would otherwise be partially kept. -/
theorem exec_c9_absent_sink_noop_witness :
    loopStream ⟨some ⟨"panel"⟩, none⟩ [.markdown "hi", .textEdit "file.ts"] = none ∧
    forwardedParts ⟨some ⟨"panel"⟩, none⟩ [.markdown "hi", .textEdit "file.ts"] = [] ∧
    (invoke ⟨some ⟨some ⟨"panel"⟩, none⟩⟩ ⟨"ls -la", "list files", "Listing files"⟩
        ⟨⟨"success", ""⟩, [⟨"r1"⟩], ⟨none⟩⟩
        [.markdown "hi", .textEdit "file.ts"]).map InvokeOutcome.streamArg = some none ∧
    (invoke ⟨some ⟨some ⟨"panel"⟩, none⟩⟩ ⟨"ls -la", "list files", "Listing files"⟩
        ⟨⟨"success", ""⟩, [⟨"r1"⟩], ⟨none⟩⟩
        [.markdown "hi", .textEdit "file.ts"]).map InvokeOutcome.forwarded = some [] :=
  exec_c9_absent_sink_noop ⟨some ⟨"panel"⟩, none⟩ ⟨"panel"⟩
    ⟨"ls -la", "list files", "Listing files"⟩ ⟨⟨"success", ""⟩, [⟨"r1"⟩], ⟨none⟩⟩
    [.markdown "hi", .textEdit "file.ts"] rfl rfl

/-- Claim C10: `resolveInput` returns its input unchanged and its only
effect is storing the supplied prompt context on the instance. -/
theorem exec_c10_resolveInput_identity (tool : ExecutionSubagentTool)
    (input : IExecutionSubagentParams) (promptContext : IBuildPromptContext)
    (mode : CopilotToolMode) :
    (resolveInput tool input promptContext mode).2 = input ∧
    (resolveInput tool input promptContext mode).1 =
      { _inputContext := some promptContext } :=
  ⟨rfl, rfl⟩

end ExecutionSubagent
